import Mathlib

/-!
Verification development for the Open Games Launcher core (`src/launcher.py`).

The Python source is shallowly embedded: pure fragments become Lean
functions, filesystem and process effects become explicit parameters
(oracles returning `Except`) or explicit input/output values, and the
JSON dictionaries backing game records become association lists over a
small value type.  POSIX path semantics are assumed (no symbolic links,
`/` separator), matching the environment the extraction and catalog code
manipulates paths in.
-/

namespace OGL

/-! ## String helpers

Structural re-implementations of the Python `str` operations the source
uses (`startswith`, `endswith`, `lower`, `replace(" ", "_")`, `split` on
the path separator), written over `List Char` so that concrete instances
reduce by `decide`/`rfl`. -/

/-- Models Python `s.startswith(pre)`. -/
def strStartsWith (s pre : String) : Bool :=
  pre.toList.isPrefixOf s.toList

/-- Models Python `s.endswith(suf)`. -/
def strEndsWith (s suf : String) : Bool :=
  suf.toList.isSuffixOf s.toList

/-- Models Python `s.lower()`. -/
def strLower (s : String) : String :=
  String.mk (s.toList.map Char.toLower)

/-- Models Python `s.lower().replace(" ", "_")` as used to derive a game id. -/
def lowerUnderscore (s : String) : String :=
  String.mk ((s.toList.map Char.toLower).map (fun c => if c = ' ' then '_' else c))

/-- Splits a character list at each path separator `/`. -/
def splitSlash : List Char → List (List Char)
  | [] => [[]]
  | c :: rest =>
    match splitSlash rest with
    | [] => [[c]]
    | g :: gs => if c = '/' then [] :: g :: gs else (c :: g) :: gs

/-- Path components of a string, as `pathlib` produces them: empty runs
and `.` components are dropped. -/
def pathComps (s : String) : List String :=
  ((splitSlash s.toList).map (fun g => String.mk g)).filter
    (fun c => !(c == "" || c == "."))

/-! ## Path model

A `pathlib.Path` is modelled as an absolute-flag plus component list. -/

/-- Model of a `pathlib` path: whether it is absolute plus its components. -/
structure PPath where
  abs : Bool
  comps : List String
deriving DecidableEq, Repr

/-- Models `pathlib.Path(s)` for a POSIX path string. -/
def parsePath (s : String) : PPath :=
  { abs := strStartsWith s ("/"), comps := pathComps s }

/-- Models `base / rel` on paths (the code only joins a non-absolute `rel`,
but the `pathlib` behaviour of an absolute `rel` replacing `base` is kept). -/
def pjoin (base rel : PPath) : PPath :=
  if rel.abs then rel else { abs := base.abs, comps := base.comps ++ rel.comps }

/-- Normalises `..` components of an absolute path (a `..` at the root
disappears, as in POSIX resolution). -/
def resolveAbs (cs : List String) : List String :=
  (cs.foldl (fun st c => if c = ".." then st.drop 1 else c :: st) []).reverse

/-- Models `Path.resolve()` with current directory `cwd` (given as the
component list of an absolute directory); symbolic links are assumed
absent, so resolution is lexical normalisation. -/
def presolve (cwd : List String) (p : PPath) : PPath :=
  { abs := true, comps := resolveAbs (if p.abs then p.comps else cwd ++ p.comps) }

/-- Models Python `str(path)` for the paths the extractor compares. -/
def pstr (p : PPath) : String :=
  if p.abs then "/" ++ String.intercalate ("/") p.comps
  else if p.comps = [] then "." else String.intercalate ("/") p.comps

/-- True when `o` is `b` itself or a path below `b` (what the spec calls a
descendant of the canonical destination). -/
def isDescendant (b o : PPath) : Bool :=
  b.abs == o.abs && b.comps.isPrefixOf o.comps

/-- Models `Path(s).name`: the last component (empty for the root). -/
def lastComponent (s : String) : String :=
  (pathComps s).getLastD ("")

/-- Models `PurePath.stem` on a file name: the name up to its last dot,
where a dot in first position does not count as an extension separator. -/
def stemOfName (n : String) : String :=
  let cs := n.toList
  let i := cs.reverse.indexOf '.'
  if i + 1 < cs.length then String.mk (cs.take (cs.length - 1 - i)) else n

/-- Models `PurePath.suffix` on a file name: the last dot and what follows,
empty when there is no extension. -/
def suffixOfName (n : String) : String :=
  let cs := n.toList
  let i := cs.reverse.indexOf '.'
  if i + 1 < cs.length then String.mk (cs.drop (cs.length - 1 - i)) else ""

/-- Models `str(Path(s).parent)`. -/
def parentPath (s : String) : String :=
  let p := parsePath s
  pstr { abs := p.abs, comps := p.comps.dropLast }

/-! ## Archive extraction (`_safe_extract_zip`, lines 48-63)

A zip entry carries its recorded name and (for file entries) its
decompressed content; `ZipInfo.is_dir()` holds exactly when the recorded
name ends in `/`.  The extractor returns the file writes it performed in
order, plus the message of the exception that aborted it, if any; an
aborted run performs no write for the offending entry or any later one. -/

/-- One archive member as `zipfile` presents it. -/
structure ZipInfo where
  filename : String
  content : String
deriving DecidableEq, Repr

/-- Loop body of `_safe_extract_zip` over the entry list, with `base` the
already-resolved destination. Returns (writes performed, abort message). -/
def safeExtractLoop (cwd : List String) (base : PPath) :
    List ZipInfo → List (PPath × String) × Option String
  | [] => ([], none)
  | info :: rest =>
    let rel := parsePath info.filename
    if rel.abs then
      ([], some ("Unsafe absolute path in zip: " ++ info.filename))
    else
      let out := presolve cwd (pjoin base rel)
      if !strStartsWith (pstr out) (pstr base) then
        ([], some ("Unsafe path traversal in zip: " ++ info.filename))
      else if strEndsWith info.filename ("/") then
        safeExtractLoop cwd base rest
      else
        let r := safeExtractLoop cwd base rest
        ((out, info.content) :: r.1, r.2)

/-- Models `_safe_extract_zip(zf, dest_dir)`: `cwd` is the process working
directory used by `resolve` when `dest_dir` is relative. -/
def safeExtractZip (cwd : List String) (entries : List ZipInfo) (destDir : PPath) :
    List (PPath × String) × Option String :=
  safeExtractLoop cwd (presolve cwd destDir) entries

/-! ## Game records (`dict` model)

A game record is a JSON object; the store logic only ever inspects string
values, string lists (`args`) and the flat string-map `update` block, so
values are modelled by exactly those shapes.  Python dict assignment
replaces the value of an existing key in place and appends new keys. -/

/-- JSON-ish value stored in a game record. -/
inductive Val where
  | vstr (s : String)
  | vlist (xs : List String)
  | vpairs (xs : List (String × String))
deriving DecidableEq, Repr

/-- A game record: an insertion-ordered string-keyed dictionary. -/
abbrev Dict := List (String × Val)

/-- Models `d.get(k)` / `d[k]`. -/
def dget : Dict → String → Option Val
  | [], _ => none
  | (k, v) :: rest, q => if k = q then some v else dget rest q

/-- Models `d[k] = v`: replace in place if present, else append. -/
def dinsert : Dict → String → Val → Dict
  | [], k, v => [(k, v)]
  | (k0, v0) :: rest, k, v =>
    if k0 = k then (k, v) :: rest else (k0, v0) :: dinsert rest k v

/-- Models `{q: w for q, w in d.items() if q != k}`. -/
def derase : Dict → String → Dict
  | [], _ => []
  | (k0, v0) :: rest, k =>
    if k0 = k then derase rest k else (k0, v0) :: derase rest k

/-- Models `k in d`. -/
def dmem (d : Dict) (k : String) : Bool :=
  (dget d k).isSome

/-- Python truthiness of a record value. -/
def truthy : Val → Bool
  | .vstr s => s ≠ ""
  | .vlist xs => xs ≠ []
  | .vpairs xs => xs ≠ []

/-- Truthiness of `d.get(k)` (a missing key is falsy like `None`). -/
def truthyOpt (o : Option Val) : Bool :=
  match o with
  | none => false
  | some v => truthy v

/-! ## Catalog store (`_read_game_file`, `_write_game_file`, `load_games`,
`save_games`, lines 66-127)

The filesystem is explicit: reading takes the parse outcome of the file
(`none` when `read_text`/`json.loads` fails or the JSON is not an object,
both of which raise in the Python and are caught by the `except` branch),
writing goes through an oracle `w : String → Dict → Except String Unit`
standing for `Path.write_text` (JSON text serialisation of a record is
assumed to round-trip, as `json.dumps`/`json.loads` do on these values).
`GAMES_DIR` is the relative directory `games`. -/

/-- Models `SCHEMA_DEFAULT` (lines 66-80); `cwd` is `str(Path.cwd())`. -/
def schemaDefault (cwd : String) : Dict :=
  [("id", .vstr ("sample")),
   ("name", .vstr ("Sample Game")),
   ("game_path", .vstr (cwd ++ "/SampleGame.exe")),
   ("work_dir", .vstr cwd),
   ("args", .vlist []),
   ("news_url", .vstr ("https://raw.githubusercontent.com/github/markup/master/README.md")),
   ("icon", .vstr ("assets/empty_icon.png")),
   ("cover", .vstr ("assets/empty_background.jpg")),
   ("update", .vpairs
     [("url", ""), ("dest", cwd ++ "/sample_update.zip"), ("extract_to", cwd)])]

/-- Models `_read_game_file(p)` (lines 82-95): `ex` is `Path.exists`, `cwd`
is `str(Path.cwd())`, `p` the file path, `parsed` the parse outcome of its
text.  Returns `none` where the Python returns the falsy `{}` (any raise
inside the body is caught and logged as a skip). -/
def readGameFile (ex : String → Bool) (cwd : String) (p : String)
    (parsed : Option Dict) : Option Dict :=
  match parsed with
  | none => none
  | some data0 =>
    let data1 :=
      if dmem data0 ("id") then data0
      else dinsert data0 ("id") (.vstr (stemOfName (lastComponent p)))
    let data2 :=
      if dmem data1 ("name") then data1
      else dinsert data1 ("name") ((dget data1 ("id")).getD (.vstr ("")))
    if truthyOpt (dget data2 ("work_dir")) then
      some (dinsert data2 ("meta_path") (.vstr p))
    else
      match (if truthyOpt (dget data2 ("game_path")) then dget data2 ("game_path") else none) with
      | some (.vstr gp) =>
        let wd := if ex gp then parentPath gp else cwd
        some (dinsert (dinsert data2 ("work_dir") (.vstr wd)) ("meta_path") (.vstr p))
      | some _ => none
      | none =>
        some (dinsert (dinsert data2 ("work_dir") (.vstr cwd)) ("meta_path") (.vstr p))

/-- Models `(game.get("id") or game.get("name") or "game").lower().replace(" ", "_")`;
`none` when the selected value is not a string (Python would raise there). -/
def gidOf (g : Dict) : Option String :=
  let v :=
    if truthyOpt (dget g ("id")) then dget g ("id")
    else if truthyOpt (dget g ("name")) then dget g ("name")
    else some (.vstr ("game"))
  match v with
  | some (.vstr s) => some (lowerUnderscore s)
  | _ => none

/-- Models `Path(game.get("meta_path") or (GAMES_DIR / f"{gid}.json"))`;
`none` when a non-string value would make Python raise. -/
def writePathOf (g : Dict) : Option String :=
  match gidOf g with
  | none => none
  | some gid =>
    match dget g ("meta_path") with
    | some v =>
      if truthy v then
        match v with
        | .vstr s => some s
        | _ => none
      else some ("games/" ++ gid ++ ".json")
    | none => some ("games/" ++ gid ++ ".json")

/-- The serialised portion of a record: every field except `meta_path`. -/
def saveContent (g : Dict) : Dict :=
  derase g ("meta_path")

/-- Models `_write_game_file(game)` (lines 97-104) with write oracle `w`
(covering `write_text` failures; `mkdir(parents=True, exist_ok=True)`
failures are folded into the same oracle).  On success returns the record
with `meta_path` set, plus the path written. -/
def writeGameFile (w : String → Dict → Except String Unit) (g : Dict) :
    Except String (Dict × String) :=
  match writePathOf g with
  | none => .error ("TypeError: non-string id, name or meta_path")
  | some p =>
    match w p (saveContent g) with
    | .error e => .error e
    | .ok _ => .ok (dinsert g ("meta_path") (.vstr p), p)

/-- Models the id shown in the save-failure log line, `g.get` of `id` with
the default `(no id)` interpolated into the message;
records in the claims carry string ids. -/
def idRepr (g : Dict) : String :=
  match dget g ("id") with
  | some (.vstr s) => s
  | some _ => "(non-string id)"
  | none => "(no id)"

/-- Loop of `save_games` (lines 122-127): each failure is caught and turned
into a `logging.error` line; the record list keeps the successful updates. -/
def saveGamesLoop (w : String → Dict → Except String Unit) :
    List Dict → List Dict × List String
  | [] => ([], [])
  | g :: rest =>
    let r := saveGamesLoop w rest
    match writeGameFile w g with
    | .ok gp => (gp.1 :: r.1, r.2)
    | .error e => (g :: r.1, ("Save failed for " ++ idRepr g ++ ": " ++ e) :: r.2)

/-- Models `save_games(games)`: always returns normally (the per-record
`try/except` swallows every failure); the result carries the updated
records and the error-log lines. -/
def saveGames (w : String → Dict → Except String Unit) (gs : List Dict) :
    Except String (List Dict × List String) :=
  .ok (saveGamesLoop w gs)

/-- The seed record `load_games` builds (lines 115-117): a copy of
`SCHEMA_DEFAULT` with `id` and `name` re-assigned. -/
def sampleSeed (cwd : String) : Dict :=
  dinsert (dinsert (schemaDefault cwd) ("id") (.vstr ("sample")))
    ("name") (.vstr ("Sample Game"))

/-- Models `load_games()` (lines 106-120).  `units` is the sorted list of
`games/*.json` files paired with their parse outcomes.  Returns the record
list and the file writes `_write_game_file` performed (the seed write is
assumed to succeed; its failure would propagate, which no claim covers). -/
def loadGames (ex : String → Bool) (cwd : String)
    (units : List (String × Option Dict)) : List Dict × List (String × Dict) :=
  let games := units.filterMap (fun u => readGameFile ex cwd u.1 u.2)
  if games.isEmpty then
    match writeGameFile (fun _ _ => .ok ()) (sampleSeed cwd) with
    | .ok sp => ([sp.1], [(sp.2, saveContent (sampleSeed cwd))])
    | .error _ => ([], [])
  else (games, [])

/-! ## Launch dispatcher (`launch_game`, `_is_windows_shortcut`,
lines 45-46 and 130-148)

The three OS effects (`webbrowser.open`, `os.startfile`,
`subprocess.Popen`) are oracles returning `Except String Unit`; the raised
exception any of them produces is its error string.  The branching of
`launch_game` is split out as a classification function returning which of the
three paths is taken and with what parameters. -/

/-- Models `_is_windows_shortcut(Path(target))`. -/
def isWindowsShortcut (target : String) : Bool :=
  [".lnk", ".url", ".bat", ".cmd"].contains
    (strLower (suffixOfName (lastComponent target)))

/-- How `launch_game` executes a target: one of the three classified paths. -/
inductive LaunchAction where
  | protocol (url : String)
  | shellOpen (path : String)
  | directExec (cmd : List String) (cwd : String)
deriving DecidableEq, Repr

/-- Whether an action is the URL/protocol path. -/
def LaunchAction.isProtocol : LaunchAction → Bool
  | .protocol _ => true
  | _ => false

/-- The four scheme strings of line 133. -/
def protocolPrefixes : List String :=
  ["http://", "https://", "steam://", "epic://"]

/-- Models `work_dir or p.parent` followed by `str(cwd)` (lines 143). -/
def cwdFrom (workDir : Option String) (target : String) : String :=
  match workDir with
  | some w => if w = "" then parentPath target else w
  | none => parentPath target

/-- The branch structure of `launch_game` (lines 131-145): protocol test
first, then the Windows shortcut/shell test (needs `os.name == "nt"` and
no args), else direct spawn with `cmd = [str(p), *args]` and the derived
working directory.  `args0 = none` models the `args=None` default. -/
def classifyLaunch (isNT : Bool) (target : String) (workDir : Option String)
    (args0 : Option (List String)) : LaunchAction :=
  let args := args0.getD []
  if protocolPrefixes.any (fun pre => strStartsWith target pre) then
    .protocol target
  else if isNT && isWindowsShortcut target && args.isEmpty then
    .shellOpen target
  else
    .directExec (target :: args) (cwdFrom workDir target)

/-- The `try` block of `launch_game`: performs the effect of the
classified action and yields the success pair, propagating any raised failure. -/
def launchGameBody (isNT : Bool) (webOpen : String → Except String Unit)
    (startfile : String → Except String Unit)
    (popen : List String → String → Except String Unit)
    (target : String) (workDir : Option String) (args0 : Option (List String)) :
    Except String (Bool × String) :=
  match classifyLaunch isNT target workDir args0 with
  | .protocol u =>
    match webOpen u with
    | .error e => .error e
    | .ok _ => .ok (true, "Opened URL/protocol")
  | .shellOpen p =>
    match startfile p with
    | .error e => .error e
    | .ok _ => .ok (true, "Launched via Shell")
  | .directExec cmd cwd =>
    match popen cmd cwd with
    | .error e => .error e
    | .ok _ => .ok (true, "Launched")

/-- Models `launch_game(game_path, work_dir, args)` (lines 130-148): the
surrounding `try/except` converts any raised failure into `(False, str(e))`. -/
def launchGame (isNT : Bool) (webOpen : String → Except String Unit)
    (startfile : String → Except String Unit)
    (popen : List String → String → Except String Unit)
    (target : String) (workDir : Option String) (args0 : Option (List String)) :
    Bool × String :=
  match launchGameBody isNT webOpen startfile popen target workDir args0 with
  | .ok r => r
  | .error e => (false, e)

/-! ## Downloader (`download_update`, lines 156-169)

The streaming part of `download_update` is modelled over the final HTTP
response: status code, the parsed `Content-Length` header (`none` when
absent, in which case `int(r.headers.get("Content-Length", "0") or 0)`
yields `0`), and the chunk sequence `iter_content` delivers.  Bytes are
natural numbers.  The destination file state is `none` when absent.  The
zip-extraction step that follows a completed download (lines 170-174) acts
on the written archive and is modelled by `safeExtractZip` above; it is
not composed here since no claim concerns the composition.
`requests.raise_for_status()` raises exactly for status codes in
`[400, 600)` (3xx responses that were not consumed by automatic redirect
handling pass through). -/

/-- The observable HTTP response of the streaming GET. -/
structure Resp where
  status : Nat
  contentLength : Option Nat
  chunks : List (List Nat)
deriving DecidableEq, Repr

/-- The chunk loop of lines 163-169: skips empty chunks, appends bytes, and
after each written chunk reports `downloaded / total` when a total is known.
Returns the bytes written and the progress values reported, in order. -/
def dlLoop (total : Nat) (downloaded : Nat) :
    List (List Nat) → List Nat × List ℚ
  | [] => ([], [])
  | c :: rest =>
    if c.isEmpty then dlLoop total downloaded rest
    else
      let d := downloaded + c.length
      let r := dlLoop total d rest
      (c ++ r.1,
       (if total ≠ 0 then [((d : ℚ) / (total : ℚ))] else []) ++ r.2)

/-- Models the download portion of `download_update(url, dest, ...)`
(lines 156-169): on an HTTP error status the raise happens before `dest`
is opened, so its prior state is returned untouched; otherwise `dest` is
opened with mode `wb` (truncating) and ends up holding exactly the
received bytes.  Result: the raised error or the written bytes with the
progress-callback values, paired with the final state of `dest`. -/
def downloadUpdate (r : Resp) (destBefore : Option (List Nat)) :
    Except String (List Nat × List ℚ) × Option (List Nat) :=
  if 400 ≤ r.status ∧ r.status < 600 then
    (.error ("HTTP error " ++ toString r.status ++ " for url"), destBefore)
  else
    let br := dlLoop (r.contentLength.getD 0) 0 r.chunks
    (.ok br, some br.1)

/-- The progress values a download result reports (none when it raised). -/
def progressOf (x : Except String (List Nat × List ℚ)) : List ℚ :=
  match x with
  | .ok br => br.2
  | .error _ => []

/-! ## Dictionary lemmas -/

theorem dget_dinsert (d : Dict) (k q : String) (v : Val) :
    dget (dinsert d k v) q = if q = k then some v else dget d q := by
  induction d with
  | nil => simp [dinsert, dget, eq_comm]
  | cons kv rest ih =>
    obtain ⟨k0, v0⟩ := kv
    by_cases h0 : k0 = k
    · subst h0
      by_cases hq : q = k0 <;> simp [dinsert, dget, hq, eq_comm]
    · have hstep : dinsert ((k0, v0) :: rest) k v = (k0, v0) :: dinsert rest k v := by
        simp [dinsert, h0]
      rw [hstep]
      by_cases hq : k0 = q
      · subst hq
        simp [dget, h0]
      · simp [dget, hq, ih]

theorem dget_derase (d : Dict) (k q : String) :
    dget (derase d k) q = if q = k then none else dget d q := by
  induction d with
  | nil => simp [derase, dget]
  | cons kv rest ih =>
    obtain ⟨k0, v0⟩ := kv
    by_cases h0 : k0 = k
    · subst h0
      have hstep : derase ((k0, v0) :: rest) k0 = derase rest k0 := by
        simp [derase]
      rw [hstep, ih]
      by_cases hq : q = k0
      · simp [hq]
      · have hq2 : ¬ k0 = q := fun h => hq h.symm
        simp [dget, hq, hq2]
    · have hstep : derase ((k0, v0) :: rest) k = (k0, v0) :: derase rest k := by
        simp [derase, h0]
      rw [hstep]
      by_cases hq : k0 = q
      · subst hq
        simp [dget, h0]
      · simp [dget, hq, ih]

theorem derase_dinsert (d : Dict) (k : String) (v : Val) :
    derase (dinsert d k v) k = derase d k := by
  induction d with
  | nil => simp [dinsert, derase]
  | cons kv rest ih =>
    obtain ⟨k0, v0⟩ := kv
    by_cases h0 : k0 = k <;> simp [dinsert, derase, h0, ih]

theorem derase_idem (d : Dict) (k : String) :
    derase (derase d k) k = derase d k := by
  induction d with
  | nil => simp [derase]
  | cons kv rest ih =>
    obtain ⟨k0, v0⟩ := kv
    by_cases h0 : k0 = k <;> simp [derase, h0, ih]

/-! ## Claim C1 -/

/-- Claim C1: `_safe_extract_zip` is claimed to raise on every entry whose
resolved path is not a descendant of the canonical destination path,
before writing outside the destination.  The code instead compares the
rendered path strings with `startswith`: extracting an archive whose entry
is named `../dest2/evil.txt` into destination `/tmp/dest` resolves to
`/tmp/dest2/evil.txt`, whose string starts with `/tmp/dest`, so the guard
passes, no exception is raised, and the file is written outside the
destination — which is not a descendant of it.  This contradicts the claim
and the docstring of the function itself (ensure paths stay within
dest_dir). -/
theorem c1_zip_slip_guard_bypassed :
    safeExtractZip [] [{ filename := "../dest2/evil.txt", content := "evil" }]
        { abs := true, comps := ["tmp", "dest"] } =
      ([({ abs := true, comps := ["tmp", "dest2", "evil.txt"] }, "evil")], none)
    ∧ isDescendant { abs := true, comps := ["tmp", "dest"] }
        { abs := true, comps := ["tmp", "dest2", "evil.txt"] } = false :=
  ⟨rfl, rfl⟩

/-! ## Claim C2 -/

/-- Counterexample to claim C2 as stated: with a storage writer that fails
(`disk full`), `save_games` of one record returns normally — the failure is
caught by its per-record `try/except` and only logged, so nothing is raised
to the caller of `save_games`. -/
theorem c2_counterexample :
    saveGames (fun _ _ => .error ("disk full")) [[("id", Val.vstr ("sample"))]] =
      .ok ([[("id", Val.vstr ("sample"))]], ["Save failed for sample: disk full"]) :=
  rfl

/-- Claim C2 (amended): a storage write failure is raised to the caller of
`_write_game_file`; `save_games` catches the failure per record, logs a
`Save failed` line, and itself returns normally rather than raising. -/
theorem c2_write_failure_surfacing (w : String → Dict → Except String Unit)
    (g : Dict) (p e : String)
    (hp : writePathOf g = some p) (hw : w p (saveContent g) = .error e) :
    writeGameFile w g = .error e
    ∧ saveGames w [g] = .ok ([g], ["Save failed for " ++ idRepr g ++ ": " ++ e]) := by
  have h1 : writeGameFile w g = .error e := by
    simp [writeGameFile, hp, hw]
  exact ⟨h1, by simp [saveGames, saveGamesLoop, h1]⟩

/-- Witness for the amended C2 theorem at a concrete record and failing writer. -/
theorem c2_write_failure_surfacing_witness :
    writeGameFile (fun _ _ => .error ("disk full")) [("id", Val.vstr ("sample"))] =
      .error ("disk full")
    ∧ saveGames (fun _ _ => .error ("disk full")) [[("id", Val.vstr ("sample"))]] =
      .ok ([[("id", Val.vstr ("sample"))]], ["Save failed for sample: disk full"]) :=
  c2_write_failure_surfacing (fun _ _ => .error ("disk full"))
    [("id", Val.vstr ("sample"))] ("games/sample.json") ("disk full") rfl rfl

/-! ## Claim C3 -/

/-- Counterexample to claim C3 as stated: a record whose `work_dir` field is
the empty string is saved verbatim, but `_read_game_file` finds the falsy
`work_dir` and rewrites it to the current directory, so the loaded record
differs from the saved one on a field other than `meta_path`. -/
theorem c3_counterexample :
    writeGameFile (fun _ _ => .ok ())
        [("id", Val.vstr ("g")), ("name", Val.vstr ("g")), ("work_dir", Val.vstr (""))] =
      .ok ([("id", Val.vstr ("g")), ("name", Val.vstr ("g")), ("work_dir", Val.vstr ("")),
            ("meta_path", Val.vstr ("games/g.json"))], "games/g.json")
    ∧ readGameFile (fun _ => false) ("/home/user") ("games/g.json")
        (some (saveContent
          [("id", Val.vstr ("g")), ("name", Val.vstr ("g")), ("work_dir", Val.vstr (""))])) =
      some [("id", Val.vstr ("g")), ("name", Val.vstr ("g")),
            ("work_dir", Val.vstr ("/home/user")), ("meta_path", Val.vstr ("games/g.json"))]
    ∧ dget [("id", Val.vstr ("g")), ("name", Val.vstr ("g")),
            ("work_dir", Val.vstr ("/home/user")), ("meta_path", Val.vstr ("games/g.json"))]
        ("work_dir") ≠
      dget [("id", Val.vstr ("g")), ("name", Val.vstr ("g")), ("work_dir", Val.vstr (""))]
        ("work_dir") :=
  ⟨rfl, rfl, by decide⟩

/-- Claim C3 (amended): for a record that carries an `id` key, a `name` key
and a truthy (non-empty) `work_dir`, saving with `_write_game_file` and
re-reading the written content with `_read_game_file` yields exactly the
saved record with `meta_path` set to the written path: every field except
`meta_path` round-trips unchanged. -/
theorem c3_roundtrip (ex : String → Bool) (cwd : String)
    (w : String → Dict → Except String Unit) (g g2 : Dict) (p : String)
    (hw : writeGameFile w g = .ok (g2, p))
    (hid : dmem g ("id") = true) (hname : dmem g ("name") = true)
    (hwd : truthyOpt (dget g ("work_dir")) = true) :
    readGameFile ex cwd p (some (saveContent g)) =
      some (dinsert (saveContent g) ("meta_path") (.vstr p))
    ∧ saveContent (dinsert (saveContent g) ("meta_path") (.vstr p)) = saveContent g := by
  have hget : ∀ q : String, q ≠ "meta_path" → dget (saveContent g) q = dget g q := by
    intro q hq
    rw [saveContent, dget_derase]
    simp [hq]
  have hid2 : dmem (saveContent g) ("id") = true := by
    rw [dmem, hget ("id") (by decide)]
    exact hid
  have hname2 : dmem (saveContent g) ("name") = true := by
    rw [dmem, hget ("name") (by decide)]
    exact hname
  have hwd2 : truthyOpt (dget (saveContent g) ("work_dir")) = true := by
    rw [hget ("work_dir") (by decide)]
    exact hwd
  constructor
  · simp [readGameFile, hid2, hname2, hwd2]
  · simp only [saveContent]
    rw [derase_dinsert, derase_idem]

/-- Witness for the amended C3 theorem at a concrete record. -/
theorem c3_roundtrip_witness :
    readGameFile (fun _ => false) ("/c") ("games/my_game.json")
      (some (saveContent
        [("id", Val.vstr ("My Game")), ("name", Val.vstr ("My Game")),
         ("game_path", Val.vstr ("/g/game.exe")), ("work_dir", Val.vstr ("/g")),
         ("args", Val.vlist ["--fast"])])) =
      some (dinsert (saveContent
        [("id", Val.vstr ("My Game")), ("name", Val.vstr ("My Game")),
         ("game_path", Val.vstr ("/g/game.exe")), ("work_dir", Val.vstr ("/g")),
         ("args", Val.vlist ["--fast"])]) ("meta_path") (.vstr ("games/my_game.json")))
    ∧ saveContent (dinsert (saveContent
        [("id", Val.vstr ("My Game")), ("name", Val.vstr ("My Game")),
         ("game_path", Val.vstr ("/g/game.exe")), ("work_dir", Val.vstr ("/g")),
         ("args", Val.vlist ["--fast"])]) ("meta_path") (.vstr ("games/my_game.json"))) =
      saveContent
        [("id", Val.vstr ("My Game")), ("name", Val.vstr ("My Game")),
         ("game_path", Val.vstr ("/g/game.exe")), ("work_dir", Val.vstr ("/g")),
         ("args", Val.vlist ["--fast"])] :=
  c3_roundtrip (fun _ => false) ("/c") (fun _ _ => .ok ())
    [("id", Val.vstr ("My Game")), ("name", Val.vstr ("My Game")),
     ("game_path", Val.vstr ("/g/game.exe")), ("work_dir", Val.vstr ("/g")),
     ("args", Val.vlist ["--fast"])]
    [("id", Val.vstr ("My Game")), ("name", Val.vstr ("My Game")),
     ("game_path", Val.vstr ("/g/game.exe")), ("work_dir", Val.vstr ("/g")),
     ("args", Val.vlist ["--fast"]), ("meta_path", Val.vstr ("games/my_game.json"))]
    ("games/my_game.json") rfl rfl rfl rfl

/-! ## Claims C6 and C7 -/

theorem filterMap_length_eq_filter {α β : Type} (f : α → Option β) (l : List α) :
    (l.filterMap f).length = (l.filter (fun a => (f a).isSome)).length := by
  induction l with
  | nil => rfl
  | cons a l ih =>
    cases h : f a <;> simp [List.filterMap_cons, List.filter_cons, h, ih]

/-- Claim C6: when at least one catalog file reads as a valid record,
`load_games` returns exactly one record per valid file (invalid files are
skipped) and writes nothing; the loader is a total function, so a bad file
never makes it throw. -/
theorem c6_load_skips_invalid (ex : String → Bool) (cwd : String)
    (units : List (String × Option Dict))
    (h : 0 < (units.filter (fun u => (readGameFile ex cwd u.1 u.2).isSome)).length) :
    (loadGames ex cwd units).1.length =
      (units.filter (fun u => (readGameFile ex cwd u.1 u.2).isSome)).length
    ∧ (loadGames ex cwd units).2 = [] := by
  have hl := filterMap_length_eq_filter (fun u => readGameFile ex cwd u.1 u.2) units
  have hne : (units.filterMap (fun u => readGameFile ex cwd u.1 u.2)).isEmpty = false := by
    cases h2 : units.filterMap (fun u => readGameFile ex cwd u.1 u.2) with
    | nil =>
      exfalso
      rw [h2] at hl
      simp at hl
      omega
    | cons x xs => rfl
  constructor <;> simp [loadGames, hne, hl]

/-- Witness for C6: a directory with one valid file and one unparseable
file loads exactly one record. -/
theorem c6_load_skips_invalid_witness :
    (loadGames (fun _ => false) ("/c")
        [("a.json", some [("id", Val.vstr ("a")), ("name", Val.vstr ("a")),
          ("work_dir", Val.vstr ("/w"))]),
         ("bad.json", (none : Option Dict))]).1.length =
      ([("a.json", some [("id", Val.vstr ("a")), ("name", Val.vstr ("a")),
          ("work_dir", Val.vstr ("/w"))]),
        ("bad.json", (none : Option Dict))].filter
        (fun u => (readGameFile (fun _ => false) ("/c") u.1 u.2).isSome)).length
    ∧ (loadGames (fun _ => false) ("/c")
        [("a.json", some [("id", Val.vstr ("a")), ("name", Val.vstr ("a")),
          ("work_dir", Val.vstr ("/w"))]),
         ("bad.json", (none : Option Dict))]).2 = [] :=
  c6_load_skips_invalid (fun _ => false) ("/c")
    [("a.json", some [("id", Val.vstr ("a")), ("name", Val.vstr ("a")),
      ("work_dir", Val.vstr ("/w"))]),
     ("bad.json", (none : Option Dict))] (by decide)

/-- Claim C7: when no catalog file yields a valid record, `load_games`
builds the sample seed record, persists it to `games/sample.json` inside
the catalog directory, and returns exactly that one record (with its
`meta_path` set to the written file). -/
theorem c7_seed_when_empty (ex : String → Bool) (cwd : String)
    (units : List (String × Option Dict))
    (h : ∀ u ∈ units, readGameFile ex cwd u.1 u.2 = none) :
    loadGames ex cwd units =
      ([dinsert (sampleSeed cwd) ("meta_path") (Val.vstr ("games/sample.json"))],
       [("games/sample.json", saveContent (sampleSeed cwd))]) := by
  have hempty : units.filterMap (fun u => readGameFile ex cwd u.1 u.2) = [] :=
    List.filterMap_eq_nil_iff.mpr h
  unfold loadGames
  rw [hempty]
  rfl

/-- Witness for C7 at the empty catalog directory. -/
theorem c7_seed_when_empty_witness :
    loadGames (fun _ => false) ("/home/u") [] =
      ([dinsert (sampleSeed ("/home/u")) ("meta_path") (Val.vstr ("games/sample.json"))],
       [("games/sample.json", saveContent (sampleSeed ("/home/u")))]) :=
  c7_seed_when_empty (fun _ => false) ("/home/u") [] (by simp)

/-! ## Claims C8, C9 and C10 -/

/-- Claim C8: `launch_game` classifies its target into exactly one of the
three launch paths in priority order: `steam://run/123` takes the
URL/protocol path whatever the platform and arguments; `game.lnk` with
empty args on Windows takes the shell path; `game.exe` with `["--fast"]`
takes the direct-executable path with exactly those arguments appended and
the working directory `work_dir` when truthy, else the parent of the target. -/
theorem c8_launch_classification (isNT : Bool) (wd : Option String) (a : List String) :
    classifyLaunch isNT ("steam://run/123") wd (some a) =
      .protocol ("steam://run/123")
    ∧ classifyLaunch true ("game.lnk") wd (some []) = .shellOpen ("game.lnk")
    ∧ classifyLaunch isNT ("game.exe") wd (some ["--fast"]) =
      .directExec ["game.exe", "--fast"] (cwdFrom wd ("game.exe"))
    ∧ cwdFrom none ("game.exe") = "."
    ∧ cwdFrom (some ("/data/wd")) ("game.exe") = "/data/wd" := by
  have hsteam : (protocolPrefixes.any fun pre => strStartsWith ("steam://run/123") pre) = true := by
    decide
  have hlnk1 : (protocolPrefixes.any fun pre => strStartsWith ("game.lnk") pre) = false := by
    decide
  have hlnk2 : isWindowsShortcut ("game.lnk") = true := by decide
  have hexe1 : (protocolPrefixes.any fun pre => strStartsWith ("game.exe") pre) = false := by
    decide
  have hexe2 : isWindowsShortcut ("game.exe") = false := by decide
  refine ⟨?_, ?_, ?_, by decide, ?_⟩
  · simp [classifyLaunch, hsteam]
  · simp [classifyLaunch, hlnk1, hlnk2]
  · simp [classifyLaunch, hexe1, hexe2]
  · simp [cwdFrom]

/-- Claim C9: `launch_game` always returns a `(success, message)` pair —
it is a total function of its inputs and the outcomes of the three launch
effects — and any failure raised by the invoked effect (browser hand-off,
shell open, or process spawn) is caught by its `try/except` and converted
into `(False, str(e))`; when the invoked effect succeeds the result is a
success pair. -/
theorem c9_launch_never_raises (isNT : Bool) (t : String) (wd : Option String)
    (a0 : Option (List String)) (e : String) :
    launchGame isNT (fun _ => .error e) (fun _ => .error e) (fun _ _ => .error e)
      t wd a0 = (false, e)
    ∧ (launchGame isNT (fun _ => .ok ()) (fun _ => .ok ()) (fun _ _ => .ok ())
        t wd a0).1 = true := by
  constructor <;>
    cases h : classifyLaunch isNT t wd a0 <;>
      simp [launchGame, launchGameBody, h]

/-- Claim C10: `launch_game` takes the URL/protocol path exactly when the
target starts with one of the four prefixes `http://`, `https://`,
`steam://`, `epic://`; a string with any other scheme, such as
`battlenet://x`, is not classified as a protocol and falls through to the
shortcut or direct-executable classification. -/
theorem c10_protocol_prefixes (isNT : Bool) (t : String) (wd : Option String)
    (a0 : Option (List String)) :
    (classifyLaunch isNT t wd a0).isProtocol =
      (strStartsWith t ("http://") || strStartsWith t ("https://") ||
       strStartsWith t ("steam://") || strStartsWith t ("epic://"))
    ∧ (classifyLaunch isNT ("battlenet://x") wd a0).isProtocol = false := by
  have key : ∀ s : String, (classifyLaunch isNT s wd a0).isProtocol =
      (strStartsWith s ("http://") || strStartsWith s ("https://") ||
       strStartsWith s ("steam://") || strStartsWith s ("epic://")) := by
    intro s
    have hany : (protocolPrefixes.any fun pre => strStartsWith s pre) =
        (strStartsWith s ("http://") || strStartsWith s ("https://") ||
         strStartsWith s ("steam://") || strStartsWith s ("epic://")) := by
      simp [protocolPrefixes, Bool.or_assoc]
    rw [← hany]
    cases hc : (protocolPrefixes.any fun pre => strStartsWith s pre)
    · cases hcond : (isNT && isWindowsShortcut s && (a0.getD []).isEmpty) <;>
        simp [classifyLaunch, hc, hcond, LaunchAction.isProtocol]
    · simp [classifyLaunch, hc, LaunchAction.isProtocol]
  refine ⟨key t, ?_⟩
  rw [key ("battlenet://x")]
  decide

/-! ## Claims C4 and C5 -/

/-- Total number of bytes in a chunk sequence. -/
def sumLen (chunks : List (List Nat)) : Nat :=
  (chunks.map List.length).sum

theorem sumLen_cons (c : List Nat) (rest : List (List Nat)) :
    sumLen (c :: rest) = c.length + sumLen rest := by
  simp [sumLen]

theorem sumLen_eq_zero (l : List (List Nat)) (h : ∀ c ∈ l, c = []) :
    sumLen l = 0 := by
  induction l with
  | nil => rfl
  | cons c rest ih =>
    rw [sumLen_cons, h c (List.mem_cons_self c rest), ih
      (fun x hx => h x (List.mem_cons_of_mem c hx))]
    simp

theorem dlLoop_zero_total (chunks : List (List Nat)) :
    ∀ d : Nat, (dlLoop 0 d chunks).2 = [] := by
  induction chunks with
  | nil => intro d; rfl
  | cons c rest ih =>
    intro d
    by_cases hc : c.isEmpty <;> simp [dlLoop, hc, ih]

theorem dlLoop_progress (t : ℕ) (ht : 0 < t) (chunks : List (List ℕ)) :
    ∀ d : ℕ,
      (∀ p ∈ (dlLoop t d chunks).2,
        (d : ℚ) / t ≤ p ∧ p ≤ ((d + sumLen chunks : ℕ) : ℚ) / t)
      ∧ List.Chain' (· ≤ ·) (dlLoop t d chunks).2
      ∧ ((∃ c ∈ chunks, c ≠ []) →
          (dlLoop t d chunks).2.getLast? = some (((d + sumLen chunks : ℕ) : ℚ) / t))
      ∧ ((∀ c ∈ chunks, c = []) → (dlLoop t d chunks).2 = []) := by
  have htq : (0 : ℚ) < (t : ℚ) := by exact_mod_cast ht
  have ht0 : t ≠ 0 := Nat.pos_iff_ne_zero.mp ht
  induction chunks with
  | nil =>
    intro d
    refine ⟨?_, ?_, ?_, ?_⟩ <;> simp [dlLoop]
  | cons c rest ih =>
    intro d
    by_cases hc : c.isEmpty
    · have hcnil : c = [] := by simpa [List.isEmpty_iff] using hc
      have hsum : sumLen (c :: rest) = sumLen rest := by
        rw [sumLen_cons, hcnil]
        simp
      have heq : dlLoop t d (c :: rest) = dlLoop t d rest := by
        simp [dlLoop, hc]
      obtain ⟨ihb, ihchain, ihlast, ihnil⟩ := ih d
      refine ⟨?_, ?_, ?_, ?_⟩
      · rw [heq, hsum]
        exact ihb
      · rw [heq]
        exact ihchain
      · intro hex
        rw [heq, hsum]
        apply ihlast
        rcases hex with ⟨x, hx, hxne⟩
        rcases List.mem_cons.mp hx with h1 | h1
        · exact absurd (h1.trans hcnil) hxne
        · exact ⟨x, h1, hxne⟩
      · intro hall
        rw [heq]
        exact ihnil (fun x hx => hall x (List.mem_cons_of_mem c hx))
    · have hcne : c ≠ [] := fun h => by simp [h] at hc
      have heq : dlLoop t d (c :: rest) =
          (c ++ (dlLoop t (d + c.length) rest).1,
           ((d + c.length : ℕ) : ℚ) / (t : ℚ) :: (dlLoop t (d + c.length) rest).2) := by
        simp [dlLoop, hc, ht0]
      obtain ⟨ihb, ihchain, ihnlast, ihnil⟩ := ih (d + c.length)
      have hsum : sumLen (c :: rest) = c.length + sumLen rest := sumLen_cons c rest
      have hassoc : d + c.length + sumLen rest = d + sumLen (c :: rest) := by
        rw [hsum]
        omega
      have hxlow : (d : ℚ) / t ≤ ((d + c.length : ℕ) : ℚ) / t := by
        gcongr
        exact_mod_cast Nat.le_add_right d c.length
      have hxhigh : ((d + c.length : ℕ) : ℚ) / t ≤ ((d + sumLen (c :: rest) : ℕ) : ℚ) / t := by
        gcongr
        have hn : c.length ≤ sumLen (c :: rest) := by
          rw [hsum]
          omega
        exact_mod_cast hn
      refine ⟨?_, ?_, ?_, ?_⟩
      · rw [heq]
        intro p hp
        rcases List.mem_cons.mp hp with h1 | h1
        · rw [h1]
          exact ⟨hxlow, hxhigh⟩
        · obtain ⟨hlo, hhi⟩ := ihb p h1
          refine ⟨le_trans hxlow hlo, ?_⟩
          rw [hassoc] at hhi
          exact hhi
      · rw [heq]
        apply List.chain'_cons'.mpr
        refine ⟨?_, ihchain⟩
        intro b hb
        have hbmem : b ∈ (dlLoop t (d + c.length) rest).2 :=
          List.mem_of_mem_head? hb
        exact (ihb b hbmem).1
      · intro _
        rw [heq]
        dsimp only
        by_cases hrest : ∃ x ∈ rest, x ≠ []
        · have hl := ihnlast hrest
          rw [hassoc] at hl
          rcases h2 : (dlLoop t (d + c.length) rest).2 with _ | ⟨b, bs⟩
          · rw [h2] at hl
            simp at hl
          · rw [h2] at hl
            rw [List.getLast?_cons_cons]
            exact hl
        · push_neg at hrest
          have h0 : (dlLoop t (d + c.length) rest).2 = [] := ihnil hrest
          rw [h0]
          have e : d + c.length = d + sumLen (c :: rest) := by
            rw [hsum, sumLen_eq_zero rest hrest]
            omega
          rw [e]
          simp
      · intro hall
        exact absurd (hall c (List.mem_cons_self c rest)) hcne

/-- Claim C4: when the response declares a positive total size and delivers
exactly that many bytes, the progress callback of `download_update` is
invoked at least once with values `downloaded / total` forming a
non-decreasing sequence of fractions in `[0, 1]` whose last value is `1`;
when no `Content-Length` is declared the callback is never invoked. -/
theorem c4_download_progress (st t : ℕ) (chunks : List (List ℕ))
    (dest : Option (List ℕ))
    (hst : st < 400) (ht : 0 < t) (hsum : sumLen chunks = t) :
    (∃ bytes ps, (downloadUpdate ⟨st, some t, chunks⟩ dest).1 = .ok (bytes, ps) ∧
      ps ≠ [] ∧ List.Chain' (· ≤ ·) ps ∧ (∀ p ∈ ps, 0 ≤ p ∧ p ≤ 1) ∧
      ps.getLast? = some 1)
    ∧ (∀ (st2 : ℕ) (chunks2 : List (List ℕ)) (dest2 : Option (List ℕ)),
        progressOf (downloadUpdate ⟨st2, none, chunks2⟩ dest2).1 = []) := by
  constructor
  · have hcond : ¬(400 ≤ st ∧ st < 600) := by omega
    have hdl : (downloadUpdate ⟨st, some t, chunks⟩ dest).1 = .ok (dlLoop t 0 chunks) := by
      simp [downloadUpdate, hcond]
    obtain ⟨hb, hchain, hlast, _⟩ := dlLoop_progress t ht chunks 0
    have hex : ∃ c ∈ chunks, c ≠ [] := by
      by_contra hno
      push_neg at hno
      have h0 := sumLen_eq_zero chunks hno
      omega
    have hone : ((0 + sumLen chunks : ℕ) : ℚ) / (t : ℚ) = 1 := by
      rw [hsum]
      have htq : ((t : ℚ)) ≠ 0 := by
        exact_mod_cast Nat.pos_iff_ne_zero.mp ht
      simp [div_self htq]
    have hlast2 : (dlLoop t 0 chunks).2.getLast? = some 1 := by
      rw [hlast hex, hone]
    refine ⟨(dlLoop t 0 chunks).1, (dlLoop t 0 chunks).2, by rw [hdl], ?_, hchain, ?_, hlast2⟩
    · intro hnil
      rw [hnil] at hlast2
      simp at hlast2
    · intro p hp
      obtain ⟨hlo, hhi⟩ := hb p hp
      constructor
      · calc (0 : ℚ) = ((0 : ℕ) : ℚ) / (t : ℚ) := by simp
          _ ≤ p := hlo
      · calc p ≤ ((0 + sumLen chunks : ℕ) : ℚ) / (t : ℚ) := hhi
          _ = 1 := hone
  · intro st2 chunks2 dest2
    by_cases h2 : 400 ≤ st2 ∧ st2 < 600 <;>
      simp [downloadUpdate, progressOf, h2, dlLoop_zero_total]

/-- Witness for C4 at a concrete download of three bytes in two chunks. -/
theorem c4_download_progress_witness :
    (∃ bytes ps, (downloadUpdate ⟨200, some 3, [[5], [6, 7]]⟩ none).1 = .ok (bytes, ps) ∧
      ps ≠ [] ∧ List.Chain' (· ≤ ·) ps ∧ (∀ p ∈ ps, 0 ≤ p ∧ p ≤ 1) ∧
      ps.getLast? = some 1)
    ∧ (∀ (st2 : ℕ) (chunks2 : List (List ℕ)) (dest2 : Option (List ℕ)),
        progressOf (downloadUpdate ⟨st2, none, chunks2⟩ dest2).1 = []) :=
  c4_download_progress 200 3 [[5], [6, 7]] none (by omega) (by omega) (by decide)

/-- Counterexample to claim C5 as stated: a final response status of 300 is
not 2xx, yet `requests.raise_for_status()` raises only for statuses in
`[400, 600)`, so the download proceeds: no error is raised, the destination
file is opened with mode `wb` and written — here it springs into existence
with the response body — rather than being left absent. -/
theorem c5_counterexample :
    (downloadUpdate ⟨300, some 2, [[7, 8]]⟩ none).1 = .ok ([7, 8], [1])
    ∧ (downloadUpdate ⟨300, some 2, [[7, 8]]⟩ none).2 = some [7, 8] := by
  constructor <;> norm_num [downloadUpdate, dlLoop]

/-- Claim C5 (amended): for every response whose status is in `[400, 600)`
(all 4xx/5xx statuses, e.g. 404), `download_update` raises a descriptive
error before the destination file is opened, leaving it exactly as it was
(absent or unchanged). -/
theorem c5_http_error_aborts (r : Resp) (dest : Option (List ℕ))
    (h4 : 400 ≤ r.status) (h6 : r.status < 600) :
    (∃ e, (downloadUpdate r dest).1 = .error e) ∧ (downloadUpdate r dest).2 = dest := by
  have hcond : 400 ≤ r.status ∧ r.status < 600 := ⟨h4, h6⟩
  constructor
  · exact ⟨"HTTP error " ++ toString r.status ++ " for url", by simp [downloadUpdate, hcond]⟩
  · simp [downloadUpdate, hcond]

/-- Witness for the amended C5 theorem at a 404 response. -/
theorem c5_http_error_aborts_witness :
    (∃ e, (downloadUpdate ⟨404, some 3, [[5]]⟩ none).1 = .error e)
    ∧ (downloadUpdate ⟨404, some 3, [[5]]⟩ none).2 = none :=
  c5_http_error_aborts ⟨404, some 3, [[5]]⟩ none (by decide) (by decide)

end OGL
